import Mathlib

/-!
Shallow embedding of the `gen` package (go-xml, internal/gen/gen.go): helpers
that build Go AST nodes (struct types, const declarations, field lists,
functions) and small string utilities.  External dependencies (the Go parser
`go/parser`, the Go standard library `strings`/`strconv`/`unicode` fragments
actually exercised by the code) are modelled explicitly: stdlib string
functions are embedded from their documented/implemented behaviour (exact on
ASCII input, which is what every theorem below assumes), and the parser is a
parameter of the operations that call it, so theorems quantify over its
behaviour or pin it by hypothesis.

Machine strings are Lean `String`s (lists of `Char`); Go panics are modelled
as `Except.error` carrying the panic message; `nil` pointers are `Option`.
-/

/-- Fragment of `go/token.Token` used by the package (literal kinds plus the
declaration keywords `const` and `type`). -/
inductive Tok where
  | STRING
  | INT
  | FLOAT
  | CHAR
  | IMAG
  | CONST
  | TYPE
deriving DecidableEq, Repr

/-- `ast.Ident`: an identifier node (field `Name`). -/
structure Ident where
  name : String
deriving DecidableEq, Repr

/-- `ast.BasicLit`: a literal node with a token kind and its source text. -/
structure BasicLit where
  kind : Tok
  value : String
deriving DecidableEq, Repr

/-- `ast.Expr` as the dynamic (interface) type manipulated by `Struct`:
the concrete node kinds the package inspects via type assertions
(`*ast.Ident`, `*ast.BasicLit`), plus an opaque constructor for every other
expression node (identified by an arbitrary index, since the package never
looks inside them). -/
inductive GoExpr where
  | ident (name : String)
  | basicLit (lit : BasicLit)
  | otherExpr (id : Nat)
deriving DecidableEq, Repr

/-- `ast.Field`: optional names, optional type, optional tag literal.
(`Names`, `Type` and `Tag` are nil-able pointers in Go.) -/
structure GoField where
  names : List Ident
  type : Option GoExpr
  tag : Option BasicLit
deriving DecidableEq, Repr

/-- `ast.FieldList` (field `List`). -/
structure FieldListAst where
  list : List GoField
deriving DecidableEq, Repr

/-- `ast.StructType` (field `Fields`). -/
structure StructType where
  fields : FieldListAst
deriving DecidableEq, Repr

/-- `ast.BlockStmt`, as produced by the (external) parser.  The package never
inspects the statements, so they are modelled as opaque statement texts. -/
structure BlockStmt where
  stmts : List String
deriving DecidableEq, Repr

/-- `ast.FuncDecl`: doc comment lines, receiver, name, parameters, results,
body.  `Doc`, `Recv`, `Params` and `Results` are nil-able in Go. -/
structure FuncDecl where
  doc : Option (List String)
  recv : Option FieldListAst
  name : String
  params : Option FieldListAst
  results : Option FieldListAst
  body : BlockStmt
deriving DecidableEq, Repr

/-- `ast.Spec`: the two spec kinds the package builds (`ast.TypeSpec` and
`ast.ValueSpec`). -/
inductive Spec where
  | typeSpec (name : Ident) (typ : GoExpr)
  | valueSpec (names : List Ident) (typ : Option Ident) (values : List BasicLit)
deriving DecidableEq, Repr

/-- `ast.GenDecl`: keyword token, `Lparen` position (non-zero means the
declaration is rendered in grouped, parenthesized form) and its specs. -/
structure GenDecl where
  tok : Tok
  lparen : Nat
  specs : List Spec
deriving DecidableEq, Repr

/-- `ast.Decl` at file level: a function declaration or any other
declaration. -/
inductive TopDecl where
  | funcDecl (d : FuncDecl)
  | genDecl (d : GenDecl)
  | badDecl (id : Nat)
deriving DecidableEq, Repr

/-- `ast.File` (field `Decls`). -/
structure GoFile where
  decls : List TopDecl
deriving DecidableEq, Repr

/-- The backquote character, used by raw Go string literals. -/
def backquoteChar : Char := Char.ofNat 96

/-- The backquote as a one-character string. -/
def backquoteStr : String := String.mk [backquoteChar]

/-- Lower-case hexadecimal digit for a value below 16 (Go `strconv`'s
`lowerhex` table). -/
def hexDigit (n : Nat) : Char :=
  if n < 10 then Char.ofNat (48 + n) else Char.ofNat (97 + n - 10)

/-- One character of Go `strconv.Quote` output (`appendEscapedRune` with
quote `"`): escape `"` and `\`, keep printable characters, use the named
escapes for the common control characters and `\xHH` for the rest.  Exact
for ASCII input (all theorems below restrict to ASCII); the final branch
(non-ASCII printable runes kept verbatim) is only a placeholder. -/
def quoteChar (c : Char) : List Char :=
  if c = '"' ∨ c = '\\' then ['\\', c]
  else if 0x20 ≤ c.toNat ∧ c.toNat ≤ 0x7E then [c]
  else if c = '\x07' then ['\\', 'a']
  else if c = '\x08' then ['\\', 'b']
  else if c = '\x0C' then ['\\', 'f']
  else if c = '\n' then ['\\', 'n']
  else if c = '\r' then ['\\', 'r']
  else if c = '\t' then ['\\', 't']
  else if c = '\x0B' then ['\\', 'v']
  else if c.toNat < 0x20 ∨ c.toNat = 0x7F then
    ['\\', 'x', hexDigit (c.toNat / 16), hexDigit (c.toNat % 16)]
  else [c]

/-- Go `strconv.Quote` (also the behaviour of the `%q` format verb on a
string): a double-quoted, escaped Go string literal.  ASCII-exact. -/
def strconvQuote (s : String) : String :=
  String.mk ('"' :: List.flatten (s.data.map quoteChar) ++ ['"'])

/-- Go `unicode.ToTitle` restricted to ASCII (upper-cases a lower-case ASCII
letter, leaves everything else unchanged).  Exact for ASCII input. -/
def goToTitle (c : Char) : Char :=
  if 'a' ≤ c ∧ c ≤ 'z' then Char.ofNat (c.toNat - 32) else c

/-- Go `strings.isSeparator`: ASCII letters, digits and underscore are not
separators; every other ASCII character is.  (The non-ASCII branch treats
letters/digits as non-separators and spaces as separators; modelled here by
`Char.isWhitespace`, exact for the ASCII input all theorems assume.) -/
def goIsSeparator (c : Char) : Bool :=
  if c.toNat ≤ 0x7F then
    if '0' ≤ c ∧ c ≤ '9' then false
    else if 'a' ≤ c ∧ c ≤ 'z' then false
    else if 'A' ≤ c ∧ c ≤ 'Z' then false
    else if c = '_' then false
    else true
  else c.isWhitespace

/-- The character map inside Go `strings.Title`: title-case every character
that follows a separator, threading the previous (original) character as
state; the initial previous character is a space. -/
def titleMap : Char → List Char → List Char
  | _, [] => []
  | prev, c :: rest =>
      (if goIsSeparator prev then goToTitle c else c) :: titleMap c rest

/-- Go `strings.Title`. -/
def goTitle (s : String) : String :=
  String.mk (titleMap ' ' s.data)

/-- `gen.Public`: turns a string into a public (uppercase) identifier via
`ast.NewIdent(strings.Title(name))`. -/
def Public (name : String) : Ident :=
  Ident.mk (goTitle name)

/-- `gen.String`: generates a literal string node.  If the string contains a
double quote (and no backquote), backquotes are used for quoting instead of
`strconv.Quote`. -/
def GenString (s : String) : BasicLit :=
  if s.data.contains '"' && !(s.data.contains backquoteChar) then
    BasicLit.mk Tok.STRING (backquoteStr ++ s ++ backquoteStr)
  else
    BasicLit.mk Tok.STRING (strconvQuote s)

/-- `gen.TagKey`: gets the struct tag item with the given key.  The source's
guard is `if field.Tag != nil { return "" }`, so a present tag yields the
empty string, and an absent tag falls through to `field.Tag.Value`, a nil
pointer dereference (modelled as `Except.error` carrying the Go runtime
panic message).  The `reflect.StructTag(...).Get(key)` lookup is unreachable
on a nil tag and therefore never needs to be modelled. -/
def TagKey (field : GoField) (key : String) : Except String String :=
  if field.tag.isSome then Except.ok ""
  else Except.error "runtime error: invalid memory address or nil pointer dereference"

/-- Split a character list at its first space: the part before and the part
after, or `none` when there is no space. -/
def splitFirstSpace : List Char → Option (List Char × List Char)
  | [] => none
  | c :: rest =>
    if c = ' ' then some ([], rest)
    else (splitFirstSpace rest).map (fun p => (c :: p.1, p.2))

/-- Go `strings.SplitN(s, " ", 2)` as called by `gen.FieldList`: split around
the first space into at most two parts.  Like Go's `SplitN` with a positive
count, the result is never the empty list (the empty string splits to
`[""]`). -/
def splitN2 (s : String) : List String :=
  match splitFirstSpace s.data with
  | none => [s]
  | some (a, b) => [String.mk a, String.mk b]

/-- The loop body of `gen.FieldList`: for each item, split at the first
space, report `empty field list item %q` when the split is empty (dead in
practice, kept from the source), parse the last part as a type expression
via the external expression parser `pE` (`go/parser.ParseExpr`), wrapping a
parse failure as `could not parse type in %q: %v`, and take the first part
as the field name when two parts exist. -/
def fieldsLoop (pE : String → Except String GoExpr) : List String → Except String (List GoField)
  | [] => Except.ok []
  | s :: rest =>
    let parts := splitN2 s
    if parts.length = 0 then
      Except.error ("empty field list item " ++ strconvQuote s)
    else
      match pE (parts.getLastD "") with
      | Except.error e =>
          Except.error ("could not parse type in " ++ strconvQuote s ++ ": " ++ e)
      | Except.ok typeExpr =>
          (fieldsLoop pE rest).map (fun fs =>
            GoField.mk (if parts.length > 1 then [Ident.mk (parts.headD "")] else [])
              (some typeExpr) none :: fs)

/-- `gen.FieldList`: generates a field list from strings in the form
`"[name] expr"`, parameterized by the external expression parser. -/
def FieldList (pE : String → Except String GoExpr) (fields : List String) : Except String FieldListAst :=
  (fieldsLoop pE fields).map FieldListAst.mk

/-- Consecutive triples of a list, dropping a short remainder (the shape in
which `gen.Struct` and `gen.constDecl` consume their flat argument lists). -/
def triples {α : Type} : List α → List (α × α × α)
  | a :: b :: c :: rest => (a, b, c) :: triples rest
  | _ => []

/-- `gen.TypeDecl`: a type declaration with the given name. -/
def TypeDecl (name : Ident) (typ : GoExpr) : GenDecl :=
  GenDecl.mk Tok.TYPE 0 [Spec.typeSpec name typ]

/-- The name cell of a `gen.Struct` triple: Go's `name.(*ast.Ident)` type
assertion when non-nil (a non-`Ident` dynamic type panics). -/
def assertIdentOpt : Option GoExpr → Except String (List Ident)
  | none => Except.ok []
  | some (GoExpr.ident s) => Except.ok [Ident.mk s]
  | some _ => Except.error "interface conversion: ast.Expr is not *ast.Ident"

/-- The tag cell of a `gen.Struct` triple: Go's `tag.(*ast.BasicLit)` type
assertion when non-nil. -/
def assertBasicLitOpt : Option GoExpr → Except String (Option BasicLit)
  | none => Except.ok none
  | some (GoExpr.basicLit b) => Except.ok (some b)
  | some _ => Except.error "interface conversion: ast.Expr is not *ast.BasicLit"

/-- The loop of `gen.Struct`: one field per (name, type, tag) triple, with
the source's type assertions on the name and tag cells; the type cell is
stored as-is (nil stays nil). -/
def structFieldsLoop : List (Option GoExpr) → Except String (List GoField)
  | name :: typ :: tag :: rest => do
      let names ← assertIdentOpt name
      let tagLit ← assertBasicLitOpt tag
      let fs ← structFieldsLoop rest
      Except.ok (GoField.mk names typ tagLit :: fs)
  | _ => Except.ok []

/-- `gen.Struct`: creates a struct expression from a flat series of
name/type/tag triples; an argument count that is not a multiple of 3 is a
run-time panic (modelled as `Except.error` with the panic message). -/
def Struct (args : List (Option GoExpr)) : Except String StructType :=
  if args.length % 3 ≠ 0 then
    Except.error ("Number of args to FieldList must be a multiple of 3, got " ++ toString args.length)
  else
    (structFieldsLoop args).map (fun fs => StructType.mk (FieldListAst.mk fs))

/-- `gen.constDecl`: a (possibly grouped) constant declaration from flat
name/type/value triples; the value of a string-kind constant is escaped by
`strconv.Quote`, any other kind uses the value text verbatim; an empty type
cell means no type; `Lparen` is set (grouped rendering) exactly when more
than one spec results.  A length that is not a multiple of 3 panics. -/
def constDecl (kind : Tok) (args : List String) : Except String GenDecl :=
  if args.length % 3 ≠ 0 then
    Except.error "Number of values passed to ConstString must be a multiple of 3"
  else
    let specs := (triples args).map (fun t =>
      Spec.valueSpec [Ident.mk t.1]
        (if t.2.1 = "" then none else some (Ident.mk t.2.1))
        [BasicLit.mk kind (if kind = Tok.STRING then strconvQuote t.2.2 else t.2.2)])
    Except.ok (GenDecl.mk Tok.CONST (if specs.length > 1 then 1 else 0) specs)

/-- `gen.ConstInt`. -/
def ConstInt (args : List String) : Except String GenDecl := constDecl Tok.INT args

/-- `gen.ConstString`. -/
def ConstString (args : List String) : Except String GenDecl := constDecl Tok.STRING args

/-- `gen.ConstFloat`. -/
def ConstFloat (args : List String) : Except String GenDecl := constDecl Tok.FLOAT args

/-- `gen.ConstChar`. -/
def ConstChar (args : List String) : Except String GenDecl := constDecl Tok.CHAR args

/-- `gen.ConstImaginary`. -/
def ConstImaginary (args : List String) : Except String GenDecl := constDecl Tok.IMAG args

/-- `gen.SimpleType`. -/
def SimpleType (name : String) : GoExpr := GoExpr.ident name

/-- The synthetic program `gen.parseBlock` builds around a body snippet:
`package tmp\nfunc _block() \x7b\n<s>\n\x7d`. -/
def wrapBlock (s : String) : String :=
  "package tmp\nfunc _block() \x7b\n" ++ s ++ "\n\x7d"

/-- The loop of `gen.parseBlock` over the parsed file's declarations: the
body of the first function declaration, if any. -/
def firstFuncBody : List TopDecl → Option BlockStmt
  | [] => none
  | TopDecl.funcDecl d :: _ => some d.body
  | _ :: rest => firstFuncBody rest

/-- `gen.parseBlock`: wrap the snippet in a synthetic single-function
program, run it through the external file parser `pF`
(`go/parser.ParseFile`), and extract the first function's body; a parser
failure is returned as-is, and a parsed file with no function declaration
yields `parse error: no function found in %q` over the wrapped text. -/
def parseBlock (pF : String → Except String GoFile) (s : String) : Except String BlockStmt :=
  match pF (wrapBlock s) with
  | Except.error e => Except.error e
  | Except.ok file =>
    match firstFuncBody file.decls with
    | some b => Except.ok b
    | none => Except.error ("parse error: no function found in " ++ strconvQuote (wrapBlock s))

/-- `gen.Function`: the mutable function builder (name, receiver, godoc,
args, returns, body). -/
structure Function where
  name : String
  receiver : String
  godoc : String
  args : List String
  returns : List String
  body : String
deriving DecidableEq, Repr

/-- `gen.Func`: a builder with only the name set. -/
def Func (name : String) : Function :=
  Function.mk name "" "" [] [] ""

/-- `Function.Body` (the `fmt.Sprintf` formatting applied by the Go setter
is external; the already-formatted text is set here). -/
def Function.BodySet (fn : Function) (s : String) : Function := { fn with body := s }

/-- `Function.Returns`. -/
def Function.ReturnsSet (fn : Function) (values : List String) : Function := { fn with returns := values }

/-- `Function.Comment`. -/
def Function.CommentSet (fn : Function) (s : String) : Function := { fn with godoc := s }

/-- `Function.Args`. -/
def Function.ArgsSet (fn : Function) (args : List String) : Function := { fn with args := args }

/-- `Function.Receiver`. -/
def Function.ReceiverSet (fn : Function) (receiver : String) : Function := { fn with receiver := receiver }

/-- The `fl` closure inside `Function.Decl`: skip the group (returning nil
and leaving the shared error untouched) when the group is empty, its first
descriptor is the empty string, or an error is already recorded; otherwise
run `gen.FieldList`, recording its error. -/
def flGo (pE : String → Except String GoExpr) (args : List String) (err : Option String) :
    Option FieldListAst × Option String :=
  match args with
  | [] => (none, err)
  | a :: _ =>
    if a = "" ∨ err.isSome then (none, err)
    else
      match FieldList pE args with
      | Except.ok l => (some l, none)
      | Except.error e => (none, some e)

/-- `Function.Decl`: validate name and body, split the godoc into one
comment per line, run the `fl` closure over args, returns and the (single)
receiver descriptor in that order with a shared short-circuiting error,
parse the body via `parseBlock`, and assemble the `ast.FuncDecl`.  The
empty-body error text reproduces Go's `fmt.Errorf("function body for %s
unset")`, whose `%s` verb has no operand and therefore renders as
`%!s(MISSING)`. -/
def Function.Decl (fn : Function) (pE : String → Except String GoExpr)
    (pF : String → Except String GoFile) : Except String FuncDecl :=
  if fn.name = "" then Except.error "function name unset"
  else if fn.body = "" then Except.error "function body for %!s(MISSING) unset"
  else
    let comments : Option (List String) :=
      if fn.godoc ≠ "" then some (fn.godoc.splitOn "\n") else none
    let r1 := flGo pE fn.args none
    let r2 := flGo pE fn.returns r1.2
    let r3 := flGo pE [fn.receiver] r2.2
    match r3.2 with
    | some e => Except.error e
    | none =>
      match parseBlock pF fn.body with
      | Except.error e =>
          Except.error ("could not parse function body of " ++ fn.name ++ ": " ++ e)
      | Except.ok body =>
          Except.ok (FuncDecl.mk comments r3.1 fn.name r1.1 r2.1 body)

/-- Hexadecimal digit value of a character, if any (for reading `\xHH`
escapes back). -/
def unhex (c : Char) : Option Nat :=
  if '0' ≤ c ∧ c ≤ '9' then some (c.toNat - 48)
  else if 'a' ≤ c ∧ c ≤ 'f' then some (c.toNat - 97 + 10)
  else if 'A' ≤ c ∧ c ≤ 'F' then some (c.toNat - 65 + 10)
  else none

/-- Modelled from the Go language specification (external to the repository):
the value of the body of an interpreted (double-quoted) string literal —
process backslash escapes (`\"`, `\\`, the named control escapes, `\xHH`),
reject an unescaped quote or newline.  Covers the ASCII fragment, which is
all that `strconvQuote` emits on the ASCII input the theorems assume. -/
def unquoteBody : List Char → Option (List Char)
  | [] => some []
  | c :: rest =>
    if c = '\\' then
      match rest with
      | [] => none
      | e :: r =>
        if e = '"' then (unquoteBody r).map (fun l => '"' :: l)
        else if e = '\\' then (unquoteBody r).map (fun l => '\\' :: l)
        else if e = 'a' then (unquoteBody r).map (fun l => '\x07' :: l)
        else if e = 'b' then (unquoteBody r).map (fun l => '\x08' :: l)
        else if e = 'f' then (unquoteBody r).map (fun l => '\x0C' :: l)
        else if e = 'n' then (unquoteBody r).map (fun l => '\n' :: l)
        else if e = 'r' then (unquoteBody r).map (fun l => '\r' :: l)
        else if e = 't' then (unquoteBody r).map (fun l => '\t' :: l)
        else if e = 'v' then (unquoteBody r).map (fun l => '\x0B' :: l)
        else if e = 'x' then
          match r with
          | h1 :: h2 :: r2 =>
            match unhex h1, unhex h2 with
            | some n1, some n2 => (unquoteBody r2).map (fun l => Char.ofNat (16 * n1 + n2) :: l)
            | _, _ => none
          | _ => none
        else none
    else if c = '"' ∨ c = '\n' then none
    else (unquoteBody rest).map (fun l => c :: l)

/-- Modelled from the Go language specification (external to the repository):
the string value denoted by a Go string literal.  A raw (backquoted) literal
evaluates to the text between the backquotes with carriage returns
discarded; an interpreted (double-quoted) literal evaluates via
`unquoteBody`. -/
def parseStringLit (lit : String) : Option String :=
  match lit.data with
  | [] => none
  | c :: rest =>
    if c = backquoteChar then
      if rest ≠ [] ∧ rest.getLast? = some backquoteChar ∧ rest.dropLast.contains backquoteChar = false then
        some (String.mk (rest.dropLast.filter (fun x => x ≠ '\r')))
      else none
    else if c = '"' then
      if rest ≠ [] ∧ rest.getLast? = some '"' then
        (unquoteBody rest.dropLast).map String.mk
      else none
    else none

/-- Substring test on character lists (used to state what an error message
does or does not embed). -/
def containsSub (hay needle : List Char) : Bool :=
  hay.tails.any (fun t => needle.isPrefixOf t)

/-- A stub expression parser standing in for `go/parser.ParseExpr` in
witnesses: rejects the empty string the way the real parser does, accepts
anything else as an opaque identifier. -/
def pEStub : String → Except String GoExpr :=
  fun s => if s = "" then Except.error "1:1: expected expression" else Except.ok (GoExpr.ident s)

/-- A stub file parser standing in for `go/parser.ParseFile` in
counterexamples: rejects every input with a position-style diagnostic, the
shape of a real `go/parser` error (which never includes the source text). -/
def pFStubErr : String → Except String GoFile :=
  fun _ => Except.error "3:1: expected declaration, found newline"

/-- A stub file parser standing in for `go/parser.ParseFile` in witnesses:
accepts every input as a file holding one function declaration with an
opaque one-statement body. -/
def pFStubOk : String → Except String GoFile :=
  fun _ => Except.ok (GoFile.mk
    [TopDecl.funcDecl (FuncDecl.mk none none "_block" none none (BlockStmt.mk ["return x"]))])

/-- Helper: `titleMap` is the identity when neither the carried previous
character nor any character of the list is a separator. -/
theorem titleMap_id (l : List Char) (p : Char) (hp : goIsSeparator p = false)
    (hl : ∀ x ∈ l, goIsSeparator x = false) : titleMap p l = l := by
  induction l generalizing p with
  | nil => rfl
  | cons c t ih =>
    have hc : goIsSeparator c = false := hl c (List.mem_cons_self _ _)
    have ht : ∀ x ∈ t, goIsSeparator x = false := fun x hx => hl x (List.mem_cons_of_mem _ hx)
    simp [titleMap, hp, ih c hc ht]

/-- Claim C1: the code's behaviour at the failing inputs.  `TagKey` on a
field whose tag is present returns the empty string instead of the value
registered under the key, and on a field with no tag it dereferences the
nil tag (run-time panic) instead of returning the empty string — the guard
in the source is inverted, as the specification's design notes themselves
record. -/
theorem tagKey_inverted_eval :
    TagKey (GoField.mk [Ident.mk "F"] (some (GoExpr.ident "int"))
        (some (BasicLit.mk Tok.STRING "`xml:\"a\"`"))) "xml" = Except.ok ""
    ∧ TagKey (GoField.mk [Ident.mk "F"] (some (GoExpr.ident "int")) none) "xml"
        = Except.error "runtime error: invalid memory address or nil pointer dereference" :=
  ⟨rfl, rfl⟩

/-- Claim C10: for every field whose tag is present and every key, `TagKey`
returns the empty string; the tag's contents `t` and the key are arbitrary,
so the result does not depend on them. -/
theorem tagKey_present_returns_empty (field : GoField) (key : String) (t : BasicLit)
    (h : field.tag = some t) : TagKey field key = Except.ok "" := by
  simp [TagKey, h]

/-- Witness for C10 at a concrete tagged field and key. -/
theorem tagKey_present_returns_empty_witness :
    TagKey (GoField.mk [] none (some (BasicLit.mk Tok.STRING "`json:\"b\"`"))) "json"
      = Except.ok "" :=
  tagKey_present_returns_empty _ "json" (BasicLit.mk Tok.STRING "`json:\"b\"`") rfl

/-- Claim C2, counterexample: building `Func "F"` with no body fails, but
the error message is `function body for %!s(MISSING) unset` (the source's
`fmt.Errorf` format has a `%s` verb with no operand), not
`function body unset` as claimed. -/
theorem decl_bodyUnset_message_cex :
    Function.Decl (Func "F") pEStub pFStubErr
        = Except.error "function body for %!s(MISSING) unset"
    ∧ "function body for %!s(MISSING) unset" ≠ "function body unset" :=
  ⟨rfl, by decide⟩

/-- Claim C2 as amended: for every builder and every parser behaviour,
`Decl` with an empty name fails with `function name unset`, and with a
non-empty name but empty body fails with
`function body for %!s(MISSING) unset`; in both cases no declaration is
produced. -/
theorem decl_unset_errors (pE : String → Except String GoExpr)
    (pF : String → Except String GoFile) (fn : Function) :
    (fn.name = "" → Function.Decl fn pE pF = Except.error "function name unset")
    ∧ (fn.name ≠ "" → fn.body = "" →
        Function.Decl fn pE pF = Except.error "function body for %!s(MISSING) unset") := by
  constructor
  · intro h; simp [Function.Decl, h]
  · intro h1 h2; simp [Function.Decl, h1, h2]

/-- Witness for the amended C2 at concrete builders. -/
theorem decl_unset_errors_witness :
    Function.Decl (Func "") pEStub pFStubOk = Except.error "function name unset"
    ∧ Function.Decl (Func "G") pEStub pFStubOk
        = Except.error "function body for %!s(MISSING) unset" :=
  ⟨(decl_unset_errors pEStub pFStubOk (Func "")).1 rfl,
   (decl_unset_errors pEStub pFStubOk (Func "G")).2 (by decide) rfl⟩

/-- Claim C3, counterexample: with a parser that rejects the wrapped
program with a position-style diagnostic (the shape of every `go/parser`
error), `parseBlock` returns that diagnostic alone, and the full wrapped
text is not embedded in it. -/
theorem parseBlock_error_cex :
    parseBlock pFStubErr "\x7d\x7b"
        = Except.error "3:1: expected declaration, found newline"
    ∧ containsSub ("3:1: expected declaration, found newline").data
        (wrapBlock "\x7d\x7b").data = false :=
  ⟨rfl, by decide⟩

/-- Claim C3 as amended: whenever the file parser rejects the wrapped
program, `parseBlock` returns the underlying parser diagnostic unchanged
(the wrapped text is embedded only in the separate
`parse error: no function found` error, which requires a successful
parse). -/
theorem parseBlock_error_passthrough (pF : String → Except String GoFile)
    (s e : String) (h : pF (wrapBlock s) = Except.error e) :
    parseBlock pF s = Except.error e := by
  simp [parseBlock, h]

/-- Witness for the amended C3 at a concrete body and parser. -/
theorem parseBlock_error_passthrough_witness :
    pFStubErr (wrapBlock "\x7d\x7b")
        = Except.error "3:1: expected declaration, found newline"
    ∧ parseBlock pFStubErr "\x7d\x7b"
        = Except.error "3:1: expected declaration, found newline" :=
  ⟨rfl, parseBlock_error_passthrough pFStubErr "\x7d\x7b" _ rfl⟩

/-- Claim C4, counterexample: `Public "foo bar"` yields `Foo Bar` — the
characters after the first are not left unchanged (`strings.Title`
title-cases every word, not only the first character). -/
theorem public_title_cex :
    (Public "foo bar").name = "Foo Bar"
    ∧ (Public "foo bar").name.data.tail ≠ ("foo bar" : String).data.tail :=
  ⟨by decide, by decide⟩

/-- Claim C4 as amended: `Public` title-cases the first character and every
character following a separator; when no character of the name is a
separator (ASCII letters, digits and underscore are the non-separators),
only the first character is title-cased and the rest are unchanged. -/
theorem public_title_amended (c : Char) (rest : List Char)
    (hc : goIsSeparator c = false) (hrest : ∀ x ∈ rest, goIsSeparator x = false) :
    (Public (String.mk (c :: rest))).name.data = goToTitle c :: rest := by
  have hsp : goIsSeparator ' ' = true := by decide
  simp [Public, goTitle, titleMap, hsp, titleMap_id rest c hc hrest]

/-- Witness for the amended C4 at a concrete separator-free name. -/
theorem public_title_amended_witness :
    (Public (String.mk ('f' :: ("oo_bar1" : String).data))).name.data
      = goToTitle 'f' :: ("oo_bar1" : String).data :=
  public_title_amended 'f' _ (by decide) (by decide)

/-- Claim C5: the code's behaviour at the failing input `[""]`.  Whenever
the expression parser rejects the empty string (as `go/parser.ParseExpr`
does), `FieldList [""]` fails with the `could not parse type in "": ...`
error, not with `empty field list item`; moreover the empty-item branch is
unreachable for every item, because `strings.SplitN` with count 2 never
returns an empty slice. -/
theorem fieldList_empty_item_eval (pE : String → Except String GoExpr) (e : String)
    (h : pE "" = Except.error e) :
    FieldList pE [""] = Except.error ("could not parse type in \"\": " ++ e)
    ∧ ∀ s : String, (splitN2 s).length ≠ 0 := by
  constructor
  · have h0 : splitN2 "" = [""] := rfl
    simp [FieldList, fieldsLoop, h0, h, Except.map]
    rfl
  · intro s
    unfold splitN2
    rcases h : splitFirstSpace s.data with _ | ⟨a, b⟩ <;> simp

/-- Witness for C5 with a concrete parser rejecting the empty string. -/
theorem fieldList_empty_item_eval_witness :
    FieldList pEStub [""]
      = Except.error ("could not parse type in \"\": " ++ "1:1: expected expression") :=
  (fieldList_empty_item_eval pEStub "1:1: expected expression" rfl).1

/-- Claim C9: when the first element of the args list (or of the returns
list) is the empty string, `Decl` skips that whole field group without
reporting an error: the finished declaration has no parameter (or result)
list, whatever the later descriptors of the group are (`rest`, `rest2` are
arbitrary, and so is the expression parser, so unparseable descriptors are
covered). -/
theorem decl_skips_empty_first (pE : String → Except String GoExpr)
    (pF : String → Except String GoFile) (nm bd : String) (rest rest2 : List String)
    (blk : BlockStmt) (hn : nm ≠ "") (hb : bd ≠ "")
    (hp : parseBlock pF bd = Except.ok blk) :
    Function.Decl (Function.mk nm "" "" ("" :: rest) [] bd) pE pF
        = Except.ok (FuncDecl.mk none none nm none none blk)
    ∧ Function.Decl (Function.mk nm "" "" [] ("" :: rest2) bd) pE pF
        = Except.ok (FuncDecl.mk none none nm none none blk) := by
  constructor <;> simp [Function.Decl, hn, hb, hp, flGo]

/-- Witness for C9: concrete builders whose args (resp. returns) start with
the empty string and continue with an unparseable descriptor. -/
theorem decl_skips_empty_first_witness :
    Function.Decl (Function.mk "F" "" "" ["", "!!!"] [] "return x") pEStub pFStubOk
        = Except.ok (FuncDecl.mk none none "F" none none (BlockStmt.mk ["return x"]))
    ∧ Function.Decl (Function.mk "F" "" "" [] ["", "@@"] "return x") pEStub pFStubOk
        = Except.ok (FuncDecl.mk none none "F" none none (BlockStmt.mk ["return x"])) :=
  decl_skips_empty_first pEStub pFStubOk "F" "return x" ["!!!"] ["@@"]
    (BlockStmt.mk ["return x"]) (by decide) (by decide) rfl

/-- A name cell of a `Struct` triple respects the documented contract: nil
or an identifier node. -/
def nameCellOk : Option GoExpr → Bool
  | none => true
  | some (GoExpr.ident _) => true
  | some _ => false

/-- A tag cell of a `Struct` triple respects the documented contract: nil
or a basic literal node. -/
def tagCellOk : Option GoExpr → Bool
  | none => true
  | some (GoExpr.basicLit _) => true
  | some _ => false

/-- The names list a contract-respecting name cell contributes. -/
def identNamesOf : Option GoExpr → List Ident
  | some (GoExpr.ident s) => [Ident.mk s]
  | _ => []

/-- The tag a contract-respecting tag cell contributes. -/
def tagLitOf : Option GoExpr → Option BasicLit
  | some (GoExpr.basicLit b) => some b
  | _ => none

/-- The field a (name, type, tag) triple yields. -/
def mkStructField (t : Option GoExpr × Option GoExpr × Option GoExpr) : GoField :=
  GoField.mk (identNamesOf t.1) t.2.1 (tagLitOf t.2.2)

/-- Helper: a list has one triple per three elements. -/
theorem triples_length {α : Type} (l : List α) : (triples l).length = l.length / 3 := by
  match l with
  | [] => simp [triples]
  | [a] => simp [triples]
  | [a, b] => simp [triples]
  | a :: b :: c :: rest =>
    have ih := triples_length rest
    simp [triples, ih]
    omega

/-- Helper: the name-cell type assertion succeeds on contract-respecting
cells. -/
theorem assertIdentOpt_ok (o : Option GoExpr) (h : nameCellOk o = true) :
    assertIdentOpt o = Except.ok (identNamesOf o) := by
  cases o with
  | none => rfl
  | some e => cases e with
    | ident s => rfl
    | basicLit b => simp [nameCellOk] at h
    | otherExpr n => simp [nameCellOk] at h

/-- Helper: the tag-cell type assertion succeeds on contract-respecting
cells. -/
theorem assertBasicLitOpt_ok (o : Option GoExpr) (h : tagCellOk o = true) :
    assertBasicLitOpt o = Except.ok (tagLitOf o) := by
  cases o with
  | none => rfl
  | some e => cases e with
    | ident s => simp [tagCellOk] at h
    | basicLit b => rfl
    | otherExpr n => simp [tagCellOk] at h

/-- Helper: on a list of well-typed triples, the `Struct` loop produces one
field per triple, in order. -/
theorem structFieldsLoop_ok (l : List (Option GoExpr)) (h3 : l.length % 3 = 0)
    (hw : ∀ t ∈ triples l, nameCellOk t.1 = true ∧ tagCellOk t.2.2 = true) :
    structFieldsLoop l = Except.ok ((triples l).map mkStructField) := by
  match l with
  | [] => simp [structFieldsLoop, triples]
  | [a] => simp at h3
  | [a, b] => simp at h3
  | a :: b :: c :: rest =>
    have h3' : rest.length % 3 = 0 := by simp at h3; omega
    have hw' : ∀ t ∈ triples rest, nameCellOk t.1 = true ∧ tagCellOk t.2.2 = true := by
      intro t ht
      exact hw t (by simp [triples]; exact Or.inr ht)
    have hh := hw (a, b, c) (by simp [triples])
    have ih := structFieldsLoop_ok rest h3' hw'
    simp [structFieldsLoop, assertIdentOpt_ok a hh.1, assertBasicLitOpt_ok c hh.2, ih,
      triples, mkStructField]
    rfl

/-- Claim C7: `Struct` on an argument list whose length is not a multiple
of 3 fails fatally with the source's panic message; on a multiple-of-3 list
whose name and tag cells respect the documented contract (`*ast.Ident` or
nil, `*ast.BasicLit` or nil), it produces a struct with exactly one field
per (name, type, tag) triple in input order — `length / 3` fields. -/
theorem struct_triples_spec (args : List (Option GoExpr)) :
    (args.length % 3 ≠ 0 →
      Struct args = Except.error
        ("Number of args to FieldList must be a multiple of 3, got " ++ toString args.length))
    ∧ (args.length % 3 = 0 →
        (∀ t ∈ triples args, nameCellOk t.1 = true ∧ tagCellOk t.2.2 = true) →
        Struct args
            = Except.ok (StructType.mk (FieldListAst.mk ((triples args).map mkStructField)))
        ∧ ((triples args).map mkStructField).length = args.length / 3) := by
  constructor
  · intro h
    simp [Struct, h]
  · intro h3 hw
    constructor
    · simp [Struct, h3, structFieldsLoop_ok args h3 hw, Except.map]
    · simp [triples_length]

/-- Witness for C7: a length-4 list panics; a well-typed length-6 list
yields its two fields in order. -/
theorem struct_triples_spec_witness :
    Struct [none, none, none, none]
        = Except.error ("Number of args to FieldList must be a multiple of 3, got "
            ++ toString (4 : Nat))
    ∧ Struct [some (GoExpr.ident "X"), some (GoExpr.ident "int"), none,
        none, some (GoExpr.ident "string"),
        some (GoExpr.basicLit (BasicLit.mk Tok.STRING "\"t\""))]
        = Except.ok (StructType.mk (FieldListAst.mk
            [GoField.mk [Ident.mk "X"] (some (GoExpr.ident "int")) none,
             GoField.mk [] (some (GoExpr.ident "string"))
               (some (BasicLit.mk Tok.STRING "\"t\""))])) := by
  constructor
  · exact (struct_triples_spec [none, none, none, none]).1 (by decide)
  · exact ((struct_triples_spec _).2 (by decide) (by decide)).1

/-- Helper: `getD` three positions past a three-element prefix. -/
theorem getD_cons3 {α : Type} (a b c : α) (rest : List α) (n : Nat) (dflt : α) :
    (a :: b :: c :: rest).getD (n + 3) dflt = rest.getD n dflt := by
  simp [List.getD]

/-- Helper: the i-th triple of a list is made of its elements at positions
3i, 3i+1, 3i+2. -/
theorem triples_get_eq {α : Type} (l : List α) (dflt : α) (i : Nat) (h : 3 * i + 2 < l.length) :
    (triples l)[i]? = some (l.getD (3 * i) dflt, l.getD (3 * i + 1) dflt, l.getD (3 * i + 2) dflt) := by
  match l, i with
  | [], i => simp at h
  | [a], i => simp at h
  | [a, b], i => simp at h
  | a :: b :: c :: rest, 0 => simp [triples, List.getD]
  | a :: b :: c :: rest, (i + 1) =>
    have h' : 3 * i + 2 < rest.length := by simp at h; omega
    have ih := triples_get_eq rest dflt i h'
    have e1 : 3 * (i + 1) = 3 * i + 3 := by ring
    rw [e1]
    rw [show 3 * i + 3 + 1 = (3 * i + 1) + 3 from by ring]
    rw [show 3 * i + 3 + 2 = (3 * i + 2) + 3 from by ring]
    rw [getD_cons3, getD_cons3, getD_cons3]
    simpa [triples] using ih

/-- Claim C8: `constDecl` on (name, optional-type, value) triples produces
one spec per triple in input order; the i-th spec's value is the string
escaping (`strconv.Quote`) of the i-th value when the kind is string and
the verbatim value text for every other kind, its type is absent exactly
when the type cell is empty, and the declaration is grouped
(`Lparen` set) exactly when it contains more than one spec. -/
theorem constDecl_spec (kind : Tok) (args : List String) (h3 : args.length % 3 = 0) :
    ∃ d, constDecl kind args = Except.ok d
      ∧ d.tok = Tok.CONST
      ∧ d.specs.length = args.length / 3
      ∧ (∀ i, i < args.length / 3 →
          d.specs[i]? = some (Spec.valueSpec [Ident.mk (args.getD (3 * i) "")]
            (if args.getD (3 * i + 1) "" = "" then none
             else some (Ident.mk (args.getD (3 * i + 1) "")))
            [BasicLit.mk kind (if kind = Tok.STRING then strconvQuote (args.getD (3 * i + 2) "")
              else args.getD (3 * i + 2) "")]))
      ∧ (d.lparen = 1 ↔ 1 < args.length / 3) := by
  have hlen : (triples args).length = args.length / 3 := triples_length args
  refine ⟨GenDecl.mk Tok.CONST
      (if ((triples args).map (fun t =>
        Spec.valueSpec [Ident.mk t.1]
          (if t.2.1 = "" then none else some (Ident.mk t.2.1))
          [BasicLit.mk kind (if kind = Tok.STRING then strconvQuote t.2.2 else t.2.2)])).length > 1
       then 1 else 0)
      ((triples args).map (fun t =>
        Spec.valueSpec [Ident.mk t.1]
          (if t.2.1 = "" then none else some (Ident.mk t.2.1))
          [BasicLit.mk kind (if kind = Tok.STRING then strconvQuote t.2.2 else t.2.2)])),
    by simp [constDecl, h3], rfl, ?_, ?_, ?_⟩
  · simpa using hlen
  · intro i hi
    have hb : 3 * i + 2 < args.length := by
      have := Nat.div_add_mod args.length 3
      omega
    simp [List.getElem?_map, triples_get_eq args "" i hb]
  · show (if _ > 1 then 1 else 0) = 1 ↔ _
    simp only [List.length_map, hlen]
    split_ifs with h
    · simp [h]
    · simp
      omega

/-- Witness for C8: a string-kind declaration from two concrete triples. -/
theorem constDecl_spec_witness :
    ∃ d, constDecl Tok.STRING ["A", "", "x", "B", "T", "y"] = Except.ok d
      ∧ d.tok = Tok.CONST
      ∧ d.specs.length = (["A", "", "x", "B", "T", "y"] : List String).length / 3
      ∧ (∀ i, i < (["A", "", "x", "B", "T", "y"] : List String).length / 3 →
          d.specs[i]? = some (Spec.valueSpec
            [Ident.mk ((["A", "", "x", "B", "T", "y"] : List String).getD (3 * i) "")]
            (if (["A", "", "x", "B", "T", "y"] : List String).getD (3 * i + 1) "" = "" then none
             else some (Ident.mk ((["A", "", "x", "B", "T", "y"] : List String).getD (3 * i + 1) "")))
            [BasicLit.mk Tok.STRING
              (if Tok.STRING = Tok.STRING then
                strconvQuote ((["A", "", "x", "B", "T", "y"] : List String).getD (3 * i + 2) "")
               else (["A", "", "x", "B", "T", "y"] : List String).getD (3 * i + 2) "")]))
      ∧ (d.lparen = 1 ↔ 1 < (["A", "", "x", "B", "T", "y"] : List String).length / 3) :=
  constDecl_spec Tok.STRING ["A", "", "x", "B", "T", "y"] (by decide)

/-- Helper: reading back a lower-case hex digit. -/
theorem unhex_hexDigit : ∀ n < 16, unhex (hexDigit n) = some n := by decide

/-- Helper: unquoting undoes the escaping of one ASCII character. -/
theorem unquote_quoteChar (c : Char) (hc : c.toNat ≤ 0x7F) (r : List Char) :
    unquoteBody (quoteChar c ++ r) = (unquoteBody r).map (fun l => c :: l) := by
  by_cases h1 : c = '"' ∨ c = '\\'
  · rcases h1 with h1 | h1 <;> subst h1 <;> simp [quoteChar] <;> rw [unquoteBody.eq_def] <;> simp
  · by_cases h2 : 0x20 ≤ c.toNat ∧ c.toNat ≤ 0x7E
    · have hq : ¬ c = '"' := fun h => h1 (Or.inl h)
      have hnl : ¬ c = '\n' := by
        intro h
        subst h
        simp at h2
      have hbs : ¬ c = '\\' := fun h => h1 (Or.inr h)
      simp [quoteChar, h1, h2]
      rw [unquoteBody.eq_def]
      simp [hbs, hq, hnl]
    · by_cases h3 : c = '\x07'
      · subst h3; simp [quoteChar]; rw [unquoteBody.eq_def]; simp
      · by_cases h4 : c = '\x08'
        · subst h4; simp [quoteChar]; rw [unquoteBody.eq_def]; simp
        · by_cases h5 : c = '\x0C'
          · subst h5; simp [quoteChar]; rw [unquoteBody.eq_def]; simp
          · by_cases h6 : c = '\n'
            · subst h6; simp [quoteChar]; rw [unquoteBody.eq_def]; simp
            · by_cases h7 : c = '\r'
              · subst h7; simp [quoteChar]; rw [unquoteBody.eq_def]; simp
              · by_cases h8 : c = '\t'
                · subst h8; simp [quoteChar]; rw [unquoteBody.eq_def]; simp
                · by_cases h9 : c = '\x0B'
                  · subst h9; simp [quoteChar]; rw [unquoteBody.eq_def]; simp
                  · have hctrl : c.toNat < 0x20 ∨ c.toNat = 0x7F := by omega
                    have hd1 : unhex (hexDigit (c.toNat / 16)) = some (c.toNat / 16) :=
                      unhex_hexDigit _ (by omega)
                    have hd2 : unhex (hexDigit (c.toNat % 16)) = some (c.toNat % 16) :=
                      unhex_hexDigit _ (by omega)
                    have hofnat : Char.ofNat (16 * (c.toNat / 16) + c.toNat % 16) = c := by
                      rw [Nat.div_add_mod]
                      exact Char.ofNat_toNat c
                    simp [quoteChar, h1, h2, h3, h4, h5, h6, h7, h8, h9, hctrl]
                    rw [unquoteBody.eq_def]
                    simp [hd1, hd2, hofnat]

/-- Helper: unquoting undoes the escaping of an ASCII character list. -/
theorem unquote_quote (l : List Char) (h : ∀ c ∈ l, c.toNat ≤ 0x7F) :
    unquoteBody (List.flatten (l.map quoteChar)) = some l := by
  induction l with
  | nil =>
    simp
    rw [unquoteBody.eq_def]
  | cons c t ih =>
    have hc := h c (List.mem_cons_self _ _)
    have ht : ∀ x ∈ t, x.toNat ≤ 0x7F := fun x hx => h x (List.mem_cons_of_mem _ hx)
    simp only [List.map_cons, List.flatten_cons]
    rw [unquote_quoteChar c hc]
    simp [ih ht]

/-- Helper: evaluating the literal that `strconv.Quote` produces recovers
the original ASCII string. -/
theorem strconvQuote_parse (s : String) (h : ∀ c ∈ s.data, c.toNat ≤ 0x7F) :
    parseStringLit (strconvQuote s) = some s := by
  have hbq : ¬ ('"' : Char) = backquoteChar := by decide
  simp [parseStringLit, strconvQuote, hbq, List.getLast?_concat, List.dropLast_concat,
    unquote_quote s.data h]

/-- Claim C6, counterexample: for the text made of a double quote followed
by a carriage return (which contains a double quote and no backtick),
`GenString` chooses the raw backquoted form, and parsing that literal
yields only the double quote — Go discards carriage returns inside raw
string literals — so the parsed value is not the original text. -/
theorem genString_raw_cr_cex :
    parseStringLit (GenString "\"\r").value = some "\""
    ∧ ("\"" : String) ≠ "\"\r" :=
  ⟨by decide, by decide⟩

/-- Claim C6 as amended (stated for ASCII text): when the text contains a
double quote and no backtick, `GenString` produces the backquoted literal
whose raw content between the backticks is exactly the text, and parsing
that literal yields the text provided it contains no carriage return; in
every other case `GenString` produces the `strconv.Quote` escaped literal,
and parsing it always yields the text exactly. -/
theorem genString_roundtrip_amended (s : String) (hascii : ∀ c ∈ s.data, c.toNat ≤ 0x7F) :
    ((s.data.contains '"' && !s.data.contains backquoteChar) = true →
        (GenString s).value.data = backquoteChar :: s.data ++ [backquoteChar]
        ∧ (s.data.contains '\r' = false → parseStringLit (GenString s).value = some s))
    ∧ ((s.data.contains '"' && !s.data.contains backquoteChar) = false →
        (GenString s).value = strconvQuote s
        ∧ parseStringLit (GenString s).value = some s) := by
  constructor
  · intro hcond
    simp at hcond
    have hval : (GenString s).value = backquoteStr ++ s ++ backquoteStr := by
      simp [GenString, hcond.1, hcond.2]
    have hd : (backquoteStr ++ s ++ backquoteStr).data
        = backquoteChar :: (s.data ++ [backquoteChar]) := by
      simp [backquoteStr]
    constructor
    · rw [hval, hd]
      simp
    · intro hcr
      have hmem : '\r' ∉ s.data := by simpa using hcr
      rw [hval]
      simp [parseStringLit, hd, List.getLast?_concat, List.dropLast_concat]
      constructor
      · exact hcond.2
      · have hfil : List.filter (fun x => !decide (x = '\r')) s.data = s.data :=
          List.filter_eq_self.mpr (fun a ha => by
            simp
            rintro rfl
            exact hmem ha)
        rw [hfil]
  · intro hcond
    simp at hcond
    have hneg : ¬ ('"' ∈ s.data ∧ backquoteChar ∉ s.data) := by
      rintro ⟨hq, hb⟩
      exact hb (hcond hq)
    have hval : (GenString s).value = strconvQuote s := by
      simp [GenString, hneg]
    exact ⟨hval, by rw [hval]; exact strconvQuote_parse s hascii⟩

/-- Witness for the amended C6: a concrete quote-bearing text (raw form)
and a concrete plain text (escaped form). -/
theorem genString_roundtrip_amended_witness :
    ((GenString "a\"b").value.data = backquoteChar :: ("a\"b" : String).data ++ [backquoteChar]
     ∧ parseStringLit (GenString "a\"b").value = some "a\"b")
    ∧ parseStringLit (GenString "hi").value = some "hi" := by
  refine ⟨⟨?_, ?_⟩, ?_⟩
  · exact ((genString_roundtrip_amended "a\"b" (by decide)).1 (by decide)).1
  · exact ((genString_roundtrip_amended "a\"b" (by decide)).1 (by decide)).2 (by decide)
  · exact ((genString_roundtrip_amended "hi" (by decide)).2 (by decide)).2
